import Mathlib

/-!
# Man Tab — Tab & Session State Engine, shallow embedding

Shallow embedding of the Man Tab browser extension's state engine
(`src/popup/utils/index.ts`, `src/popup/services/browser.ts`,
`src/popup/components/tabList.ts`, `src/popup/popup.ts`), together with
theorems settling the specification claims.

JavaScript strings are modelled as Lean `String`, with the string
operations the source uses (`trim`, `startsWith`, `toUpperCase`,
`includes`) defined on the underlying character list so that they are
fully executable; `localeCompare` is modelled as code-point comparison.
JS `Set<number>` is modelled as `Finset Int`. The stable
`Array.prototype.sort` is modelled as the stable `List.insertionSort`.
Timestamps and tab ids are `Int`.
-/

namespace ManTab

/-! ## String primitives on character lists -/

/-- Model of JS `String.prototype.trim` (drops surrounding whitespace). -/
def trimChars (l : List Char) : List Char :=
  ((l.dropWhile Char.isWhitespace).reverse.dropWhile Char.isWhitespace).reverse

/-- Model of JS `String.prototype.trim`. -/
def jsTrim (s : String) : String := String.mk (trimChars s.data)

/-- Model of JS `String.prototype.startsWith`. -/
def jsStartsWith (s pre : String) : Bool := pre.data.isPrefixOf s.data

/-- Model of JS `String.prototype.toUpperCase` (ASCII, as used here). -/
def jsToUpper (s : String) : String := String.mk (s.data.map Char.toUpper)

/-- Does the pattern occur as a contiguous run inside the list? -/
def listHasInfix : List Char → List Char → Bool
  | [], sub => sub.isEmpty
  | c :: t, sub => sub.isPrefixOf (c :: t) || listHasInfix t sub

/-- Model of JS `String.prototype.includes`. -/
def strIncludes (s sub : String) : Bool := listHasInfix s.data sub.data

/-- Code-point lexicographic order, the model of `localeCompare(...) <= 0`. -/
def listLe : List Char → List Char → Bool
  | [], _ => true
  | _ :: _, [] => false
  | a :: as, b :: bs => if a < b then true else if b < a then false else listLe as bs

/-- String comparison used to model `localeCompare`. -/
def strLe (a b : String) : Bool := listLe a.data b.data

/-! ## Model of the platform URL constructor

The source calls the WHATWG `new URL(...)` constructor (an external
platform capability). `jsURL` is an executable model of it, sufficient
for the inputs of interest: it strips surrounding whitespace, requires a
scheme (an ASCII letter followed by letters, digits, `+`, `-`, `.` and a
colon), lowercases scheme and host, requires a non-empty host for special
web schemes, and fails on anything without that shape (e.g. strings with
spaces before a colon). -/

structure JsUrl where
  scheme : String
  hostname : String
  deriving Repr, DecidableEq

def isSchemeStart (c : Char) : Bool := c.isAlpha

def isSchemeChar (c : Char) : Bool :=
  c.isAlphanum || c = '+' || c = '-' || c = '.'

/-- Split `scheme ":" rest`; `none` when the input has no scheme. -/
def splitSchemeAux : List Char → List Char → Option (List Char × List Char)
  | [], _ => none
  | c :: rest, acc =>
    if c = ':' then some (acc.reverse, rest)
    else if isSchemeChar c then splitSchemeAux rest (c :: acc)
    else none

def splitScheme : List Char → Option (List Char × List Char)
  | [] => none
  | c :: rest =>
    if isSchemeStart c then splitSchemeAux rest [c] else none

/-- Schemes the WHATWG parser treats as special web schemes (host required). -/
def specialSchemes : List (List Char) :=
  [['h','t','t','p'], ['h','t','t','p','s'], ['w','s'], ['w','s','s'],
   ['f','t','p']]

def isHostDelim (c : Char) : Bool := c = '/' || c = '?' || c = '#'

def isForbiddenHostChar (c : Char) : Bool :=
  c = ' ' || c = '@' || c = '\\' || c = '[' || c = ']' || c = '%'

/-- Host parsing per scheme kind; `none` models a constructor throw. -/
def parseHost (scheme rest : List Char) : Option (List Char) :=
  if specialSchemes.contains scheme then
    let r := rest.dropWhile (fun c => c = '/')
    let h := r.takeWhile (fun c => !isHostDelim c)
    if h = [] then none
    else if h.any isForbiddenHostChar then none
    else some (h.map Char.toLower)
  else if scheme = ['f','i','l','e'] then
    let r := if rest.take 2 = ['/', '/'] then rest.drop 2 else rest
    let h := r.takeWhile (fun c => !isHostDelim c)
    if h.any isForbiddenHostChar then none
    else some (h.map Char.toLower)
  else
    if rest.take 2 = ['/', '/'] then
      let h := (rest.drop 2).takeWhile (fun c => !isHostDelim c)
      if h.any isForbiddenHostChar then none
      else some h
    else some []

/-- Model of `new URL(s)`: `none` when the constructor would throw. -/
def jsURL (s : String) : Option JsUrl :=
  match splitScheme (trimChars s.data) with
  | none => none
  | some (sch, rest) =>
    let scheme := sch.map Char.toLower
    match parseHost scheme rest with
    | none => none
    | some h => some ⟨String.mk scheme, String.mk h⟩

/-! ## `src/popup/utils/index.ts` -/

structure ValidationResult where
  isValid : Bool
  error : Option String
  deriving Repr, DecidableEq

/-- Function `validateUrl` from `src/popup/utils/index.ts`. -/
def validateUrl (urlString : String) : ValidationResult :=
  if urlString = "" then ⟨false, some "URL is required"⟩
  else if (jsTrim urlString).length = 0 then ⟨false, some "URL cannot be empty"⟩
  else
    match jsURL urlString with
    | some _ => ⟨true, none⟩
    | none => ⟨false, some "Invalid URL format"⟩

/-- The `/^www\./` stripping used by `getDomain`. -/
def stripWww (h : String) : String :=
  if jsStartsWith h "www." then String.mk (h.data.drop 4) else h

/-- Function `getDomain` from `src/popup/utils/index.ts`. -/
def getDomain (urlString : String) : String :=
  if urlString = "" then "Unknown"
  else if jsStartsWith urlString "chrome://"
      || jsStartsWith urlString "moz-extension://" then "Browser Internal"
  else if jsStartsWith urlString "file://" then "Local Files"
  else if jsStartsWith urlString "about:" then "Browser Pages"
  else
    match jsURL urlString with
    | some u => stripWww u.hostname
    | none => "Other"

/-- Following the spec's words (§4.1), for comparison with `getDomain`:
internal-scheme URLs → "Browser Internal"; local-file scheme →
"Local Files"; browser-native non-web pages → "Browser Pages"; otherwise
parse as a standard URL, strip a leading `www.`, return the hostname;
malformed URLs that fail parsing → "Other". -/
def getDomainSpec (urlString : String) : String :=
  if jsStartsWith urlString "chrome://"
      || jsStartsWith urlString "moz-extension://" then "Browser Internal"
  else if jsStartsWith urlString "file://" then "Local Files"
  else if jsStartsWith urlString "about:" then "Browser Pages"
  else
    match jsURL urlString with
    | some u => stripWww u.hostname
    | none => "Other"

/-- The character class of `validateSessionName`, i.e. `<>:"/\|?*`. -/
def invalidNameChar (c : Char) : Bool :=
  c = '<' || c = '>' || c = ':' || c = '"' || c = '/' || c = '\\' ||
  c = '|' || c = '?' || c = '*'

/-- Function `validateSessionName` from `src/popup/utils/index.ts`. -/
def validateSessionName (name : String) : ValidationResult :=
  if name = "" then ⟨false, some "Session name is required"⟩
  else
    let trimmed := jsTrim name
    if trimmed.length = 0 then ⟨false, some "Session name cannot be empty"⟩
    else if trimmed.length > 100 then
      ⟨false, some "Session name too long (max 100 characters)"⟩
    else if trimmed.data.any invalidNameChar then
      ⟨false, some "Session name contains invalid characters"⟩
    else ⟨true, none⟩

/-- Decidable equality for `Except`, so that results of fallible
operations can be checked on concrete inputs. -/
instance exceptDecEq {ε α : Type} [DecidableEq ε] [DecidableEq α] :
    DecidableEq (Except ε α)
  | .error e, .error f =>
    if h : e = f then .isTrue (by rw [h])
    else .isFalse (fun hh => h (by cases hh; rfl))
  | .error _, .ok _ => .isFalse (fun hh => Except.noConfusion hh)
  | .ok _, .error _ => .isFalse (fun hh => Except.noConfusion hh)
  | .ok a, .ok b =>
    if h : a = b then .isTrue (by rw [h])
    else .isFalse (fun hh => h (by cases hh; rfl))

/-! ## Data model (`src/types/index.ts` shapes, as used by the engine) -/

structure Tab where
  id : Int
  title : String
  url : String
  pinned : Bool
  windowId : Int
  active : Bool
  lastAccessed : Int
  deriving Repr, DecidableEq

structure SessionTab where
  url : String
  title : String
  deriving Repr, DecidableEq

structure Session where
  name : String
  tabs : List SessionTab
  date : Int
  deriving Repr, DecidableEq

inductive SortBy where
  | lastAccessed
  | title
  | url
  deriving Repr, DecidableEq

structure FilterOptions where
  timeFilter : Int
  searchTerm : String
  sortBy : SortBy
  deriving Repr, DecidableEq

/-- The mutable popup state of `ManTabApp` (`src/popup/popup.ts`),
restricted to the engine fields. -/
structure AppState where
  allTabs : List Tab
  filteredTabs : List Tab
  selectedTabs : Finset Int
  closeConfirmation : Bool
  savedSessions : List Session
  deriving DecidableEq

/-! ## Filter-Sort Pipeline (`applyFilters` in `src/popup/popup.ts`) -/

/-- The predicate of the `tabs.filter(...)` step of `applyFilters`:
`true` when the tab is kept. -/
def tabPassesFilters (now : Int) (filters : FilterOptions) (tab : Tab) : Bool :=
  if filters.timeFilter > 0 ∧ now - tab.lastAccessed < filters.timeFilter then
    false
  else if filters.searchTerm ≠ ""
      ∧ strIncludes (jsToUpper tab.title) filters.searchTerm = false
      ∧ strIncludes (jsToUpper tab.url) filters.searchTerm = false then
    false
  else true

/-- Key `(a.title || a.url)` used by the title sort comparison. -/
def titleKey (t : Tab) : String := if t.title = "" then t.url else t.title

/-- The `filtered.sort(...)` step of `applyFilters`, per sort mode.
JS `Array.prototype.sort` is a stable sort, whose output is determined by
the comparator; it is modelled by the stable `List.insertionSort`. -/
def sortStep : SortBy → List Tab → List Tab
  | .title, l => List.insertionSort (fun a b => strLe (titleKey a) (titleKey b) = true) l
  | .url, l => List.insertionSort (fun a b => strLe a.url b.url = true) l
  | .lastAccessed, l => List.insertionSort (fun a b => b.lastAccessed ≤ a.lastAccessed) l

/-- Function `applyFilters` from `src/popup/popup.ts`: filter, then sort. -/
def applyFilters (now : Int) (tabs : List Tab) (filters : FilterOptions) : List Tab :=
  sortStep filters.sortBy (tabs.filter (tabPassesFilters now filters))

/-! ## Grouped view (`src/popup/components/tabList.ts`) -/

/-- Append a tab to its domain bucket, keeping key insertion order
(the behaviour of `groups[domain].push(tab)` on a JS object). -/
def insertGroup (groups : List (String × List Tab)) (d : String) (t : Tab) :
    List (String × List Tab) :=
  match groups with
  | [] => [(d, [t])]
  | (k, ts) :: rest =>
    if k = d then (k, ts ++ [t]) :: rest else (k, ts) :: insertGroup rest d t

/-- One step of the `tabs.reduce(...)` in `groupTabsByDomain`: tabs with a
falsy `url` are skipped. -/
def groupStep (groups : List (String × List Tab)) (tab : Tab) :
    List (String × List Tab) :=
  if tab.url = "" then groups else insertGroup groups (getDomain tab.url) tab

/-- Function `groupTabsByDomain` from `src/popup/components/tabList.ts`. -/
def groupTabsByDomain (tabs : List Tab) : List (String × List Tab) :=
  tabs.foldl groupStep []

/-- The `Object.entries(groupedTabs).sort(...)` step of
`renderGroupedTabList`: groups ordered by descending member count
(stable sort, modelled by `List.insertionSort`). -/
def sortedGroups (tabs : List Tab) : List (String × List Tab) :=
  List.insertionSort (fun a b => b.2.length ≤ a.2.length)
    (groupTabsByDomain tabs)

/-! ## Session Store (`src/popup/services/browser.ts`) -/

/-- The validation messages `saveSessions` pushes for one session
(name check, non-empty tabs check, per-tab URL checks, in that order).
`index`/`tabIndex` are the 0-based loop indices. -/
def urlViolations (index : Nat) : Nat → List SessionTab → List String
  | _, [] => []
  | tabIndex, t :: rest =>
    (if (validateUrl t.url).isValid then []
     else ["Session " ++ toString (index + 1) ++ ", Tab " ++
           toString (tabIndex + 1) ++ ": " ++ ((validateUrl t.url).error.getD "")]) ++
    urlViolations index (tabIndex + 1) rest

def sessionViolations (index : Nat) (s : Session) : List String :=
  (if (validateSessionName s.name).isValid then []
   else ["Session " ++ toString (index + 1) ++ ": " ++
         ((validateSessionName s.name).error.getD "")]) ++
  (if s.tabs.length = 0 then
     ["Session " ++ toString (index + 1) ++ ": Must have at least one tab"]
   else []) ++
  urlViolations index 0 s.tabs

/-- The `validationErrors` array accumulated by `saveSessions`. -/
def validationErrorsAux : Nat → List Session → List String
  | _, [] => []
  | i, s :: rest => sessionViolations i s ++ validationErrorsAux (i + 1) rest

def validationErrors (sessions : List Session) : List String :=
  validationErrorsAux 0 sessions

/-- Function `saveSessions` from `src/popup/services/browser.ts`: validate the whole
batch, then either throw a `SessionError` carrying every violation, or
perform the single `storage.local.set` write. -/
def saveSessions (sessions : List Session) : Except String (List Session) :=
  if validationErrors sessions = [] then .ok sessions
  else .error ("Validation failed: " ++
    String.intercalate ", " (validationErrors sessions))

/-- Operation `saveSessions` seen from the storage: the persisted list after the
call, plus the error message when it throws. -/
def saveSessionsStorage (storage : List Session) (sessions : List Session) :
    List Session × Option String :=
  match saveSessions sessions with
  | .ok s => (s, none)
  | .error e => (storage, some e)

/-- Is a session URL restorable? The partition test of `restoreSession`:
a present URL that passes `validateUrl` and literally starts with
`"http:"` or `"https://"`. -/
def restorableUrl (t : SessionTab) : Bool :=
  t.url ≠ "" && (validateUrl t.url).isValid &&
    (jsStartsWith t.url "http:" || jsStartsWith t.url "https://")

/-- The `validUrls`/`invalidUrls` partition loop of `restoreSession`
(`src/popup/services/browser.ts`); a missing URL is recorded as the
placeholder `"<No URL found>"`. -/
def restorePartition : List SessionTab → List String × List String
  | [] => ([], [])
  | t :: ts =>
    let r := restorePartition ts
    if t.url = "" then (r.1, "<No URL found>" :: r.2)
    else if (validateUrl t.url).isValid &&
        (jsStartsWith t.url "http:" || jsStartsWith t.url "https://") then
      (t.url :: r.1, r.2)
    else (r.1, t.url :: r.2)

/-! ## Import merge (`processImportFile` in `src/popup/popup.ts`) -/

/-- The merge step of `processImportFile`: drop incoming sessions whose
name matches an existing one, prepend the survivors. Returns the merged
list and the number of sessions added. -/
def importMerge (existing incoming : List Session) : List Session × Nat :=
  let existingNames := existing.map Session.name
  let newSessions := incoming.filter (fun s => !existingNames.contains s.name)
  (if newSessions.isEmpty then existing else newSessions ++ existing,
   newSessions.length)

/-- Function `processImportFile` after JSON decoding: the
`importedSessions.some((s) => !s?.name || !s?.tabs)` shape check (a falsy
name is an empty string here), then the merge. An all-duplicates import
is not an error. -/
def processImportSessions (existing incoming : List Session) :
    Except String (List Session × Nat) :=
  if incoming.any (fun s => s.name = "") then .error "Invalid session format"
  else .ok (importMerge existing incoming)

/-! ## Popup state transitions (`src/popup/popup.ts`) -/

/-- Function `applyFiltersAndRender`: recompute `filteredTabs`, reset the close
confirmation. The selection set is not touched. -/
def applyFiltersAndRender (st : AppState) (now : Int) (filters : FilterOptions) :
    AppState :=
  { st with
    closeConfirmation := false
    filteredTabs := applyFilters now st.allTabs filters }

/-- Function `loadInitialData`: replace the live tab collection and session list
wholesale with the freshly fetched ones (defaulting a falsy
`lastAccessed` to `Date.now()`), then re-run the pipeline. -/
def loadInitialData (st : AppState) (now : Int) (fetchedTabs : List Tab)
    (fetchedSessions : List Session) (filters : FilterOptions) : AppState :=
  let st := { st with
    allTabs := fetchedTabs.map (fun t =>
      { t with lastAccessed := if t.lastAccessed = 0 then now else t.lastAccessed })
    savedSessions := fetchedSessions }
  applyFiltersAndRender st now filters

/-- The effective session name of `handleSaveSession`:
`sessionInput?.value?.trim() || getCurrentTimestamp()`. -/
def effectiveSessionName (inputValue defaultTimestamp : String) : String :=
  if jsTrim inputValue = "" then defaultTimestamp else jsTrim inputValue

/-- Function `handleSaveSession` from `src/popup/popup.ts`, as a function of the
state, the persisted storage, the raw name input and the timestamp name
fallback. Returns the new state, the new storage and the toast error
message if any. -/
def handleSaveSession (st : AppState) (storage : List Session)
    (inputValue defaultTimestamp : String) (now : Int) :
    AppState × List Session × Option String :=
  let sessionName := effectiveSessionName inputValue defaultTimestamp
  if st.selectedTabs.card = 0 then (st, storage, some "SELECT TABS TO SAVE")
  else if (validateSessionName sessionName).isValid = false then
    (st, storage, some ((validateSessionName sessionName).error.getD
      "INVALID SESSION NAME"))
  else
    let tabsToSave := (st.allTabs.filter (fun t => t.id ∈ st.selectedTabs)).map
      (fun t => SessionTab.mk t.url (if t.title = "" then t.url else t.title))
    let newSession : Session := ⟨sessionName, tabsToSave, now⟩
    let st := { st with savedSessions := newSession :: st.savedSessions }
    match saveSessions st.savedSessions with
    | .ok s => (st, s, none)
    | .error _ => (st, storage, some "ERROR: COULD NOT SAVE SESSION")

/-- The validity predicate `saveSessions` enforces per session: valid
name, at least one tab, every tab URL syntactically valid. -/
def sessionValid (s : Session) : Prop :=
  (validateSessionName s.name).isValid = true ∧ s.tabs ≠ [] ∧
  ∀ t ∈ s.tabs, (validateUrl t.url).isValid = true

instance (s : Session) : Decidable (sessionValid s) := by
  unfold sessionValid
  infer_instance

/-! ## Concrete instances used in witnesses and counterexamples -/

def c8Tab : Tab := ⟨1, "Alpha", "https://a.test/x", false, 1, false, 100⟩

def c3Bad : Session := ⟨"", [], 0⟩

def c7Tab : Tab := ⟨1, "A", "https://a.test/x", false, 1, false, 100⟩

/-- A state whose selection holds a stale id (no live tab has id 99). -/
def c7StaleState : AppState := ⟨[c7Tab], [c7Tab], {99}, false, []⟩

/-- A state with live tab 1 selected. -/
def c7SelState : AppState := ⟨[c7Tab], [c7Tab], {1}, false, []⟩

/-! ## Helper lemmas -/

theorem listLe_total : ∀ a b : List Char, listLe a b = true ∨ listLe b a = true
  | [], _ => Or.inl rfl
  | _ :: _, [] => Or.inr rfl
  | a :: as, b :: bs => by
    rcases lt_trichotomy a b with h | h | h
    · left; simp [listLe, h]
    · subst h
      rcases listLe_total as bs with ih | ih
      · left; simp [listLe, lt_irrefl, ih]
      · right; simp [listLe, lt_irrefl, ih]
    · right; simp [listLe, h]

theorem listLe_trans :
    ∀ a b c : List Char, listLe a b = true → listLe b c = true → listLe a c = true
  | [], _, _ => fun _ _ => rfl
  | _ :: _, [], _ => fun h _ => by simp [listLe] at h
  | _ :: _, _ :: _, [] => fun _ h => by simp [listLe] at h
  | a :: as, b :: bs, c :: cs => fun h1 h2 => by
    by_cases hab : a < b
    · by_cases hbc : b < c
      · simp [listLe, lt_trans hab hbc]
      · by_cases hcb : c < b
        · simp [listLe, hbc, hcb] at h2
        · have hbceq : b = c := by
            rcases lt_trichotomy b c with h | h | h
            · exact absurd h hbc
            · exact h
            · exact absurd h hcb
          subst hbceq
          simp [listLe, hab]
    · by_cases hba : b < a
      · simp [listLe, hab, hba] at h1
      · have habeq : a = b := by
          rcases lt_trichotomy a b with h | h | h
          · exact absurd h hab
          · exact h
          · exact absurd h hba
        subst habeq
        simp only [listLe, hab, if_neg, lt_irrefl, if_false] at h1
        by_cases hac : a < c
        · simp [listLe, hac]
        · by_cases hca : c < a
          · simp [listLe, hac, hca] at h2
          · simp only [listLe, hac, hca, if_false] at h2 ⊢
            exact listLe_trans as bs cs h1 h2

theorem strLe_total (a b : String) : strLe a b = true ∨ strLe b a = true :=
  listLe_total a.data b.data

theorem strLe_trans (a b c : String) :
    strLe a b = true → strLe b c = true → strLe a c = true :=
  listLe_trans a.data b.data c.data

/-- A stable sort with a total transitive comparator is idempotent. -/
theorem insertionSort_idem {α : Type} (r : α → α → Prop) [DecidableRel r]
    (total : ∀ a b, r a b ∨ r b a) (htrans : ∀ a b c, r a b → r b c → r a c)
    (l : List α) :
    List.insertionSort r (List.insertionSort r l) = List.insertionSort r l := by
  haveI : IsTotal α r := ⟨total⟩
  haveI : IsTrans α r := ⟨htrans⟩
  exact (List.sorted_insertionSort r l).insertionSort_eq

theorem mem_sortStep (k : SortBy) (l : List Tab) (t : Tab) :
    t ∈ sortStep k l ↔ t ∈ l := by
  cases k <;> simp [sortStep]

/-! ## C9 — sorting is idempotent -/

/-- C9: Sorting by title, url, or lastAccessed is idempotent: for every
tab list, applying the same sort a second time to the already-sorted
sequence yields the identical sequence (the sort is stable, so ties keep
their prior relative order). -/
theorem sortStep_idempotent (k : SortBy) (l : List Tab) :
    sortStep k (sortStep k l) = sortStep k l := by
  cases k with
  | title =>
    exact insertionSort_idem _
      (fun a b => strLe_total (titleKey a) (titleKey b))
      (fun a b c => strLe_trans (titleKey a) (titleKey b) (titleKey c)) l
  | url =>
    exact insertionSort_idem _
      (fun a b => strLe_total a.url b.url)
      (fun a b c => strLe_trans a.url b.url c.url) l
  | lastAccessed =>
    exact insertionSort_idem _
      (fun a b => le_total b.lastAccessed a.lastAccessed)
      (fun _ _ _ hab hbc => le_trans hbc hab) l

/-! ## C5 — the domain classifier -/

/-- C5 counterexample: the empty string fails URL parsing and matches no
scheme rule, so per the claim it should map to "Other", but `getDomain`
maps it to "Unknown". -/
theorem getDomain_empty_counterexample :
    jsURL "" = none ∧
    jsStartsWith "" "chrome://" = false ∧
    jsStartsWith "" "moz-extension://" = false ∧
    jsStartsWith "" "file://" = false ∧
    jsStartsWith "" "about:" = false ∧
    getDomain "" = "Unknown" ∧
    getDomain "" ≠ "Other" := by
  decide

/-- C5 (amended): `getDomain` is total; on every non-empty input it
follows the spec's rules in order (chrome:// or moz-extension:// →
"Browser Internal"; file:// → "Local Files"; about: → "Browser Pages";
otherwise the parsed hostname with a leading "www." stripped; parse
failures → "Other"); the empty string yields "Unknown" instead of
"Other". -/
theorem getDomain_follows_spec_rules (s : String) (h : s ≠ "") :
    getDomain s = getDomainSpec s := by
  unfold getDomain getDomainSpec
  rw [if_neg h]

/-- C5 witness. -/
theorem getDomain_follows_spec_rules_witness :
    getDomain "https://www.example.com/a" = getDomainSpec "https://www.example.com/a" :=
  getDomain_follows_spec_rules "https://www.example.com/a" (by decide)

/-! ## C1 — refresh does not prune the selection -/

/-- C1 counterexample: a state with tab 1 selected, refreshed against a
live collection in which tab 1 no longer exists, still has 1 in its
selection set. -/
theorem refresh_keeps_stale_selection :
    (loadInitialData
        ⟨[⟨1, "A", "https://a.test/x", false, 1, false, 100⟩],
         [⟨1, "A", "https://a.test/x", false, 1, false, 100⟩],
         {1}, false, []⟩
        50 [] [] ⟨0, "", .lastAccessed⟩).allTabs = [] ∧
    (1 : Int) ∈ (loadInitialData
        ⟨[⟨1, "A", "https://a.test/x", false, 1, false, 100⟩],
         [⟨1, "A", "https://a.test/x", false, 1, false, 100⟩],
         {1}, false, []⟩
        50 [] [] ⟨0, "", .lastAccessed⟩).selectedTabs := by
  constructor
  · rfl
  · decide

/-- C1 (amended): a refresh replaces the live tab collection and the
session list wholesale (defaulting a zero `lastAccessed` to now) and
recomputes the filtered view, but leaves the selection set exactly as it
was: ids of closed tabs are not pruned and silently persist in the
selection. -/
theorem loadInitialData_preserves_selection (st : AppState) (now : Int)
    (fetchedTabs : List Tab) (fetchedSessions : List Session)
    (filters : FilterOptions) :
    (loadInitialData st now fetchedTabs fetchedSessions filters).selectedTabs
      = st.selectedTabs ∧
    (loadInitialData st now fetchedTabs fetchedSessions filters).allTabs
      = fetchedTabs.map (fun t =>
          { t with lastAccessed := if t.lastAccessed = 0 then now else t.lastAccessed }) ∧
    (loadInitialData st now fetchedTabs fetchedSessions filters).savedSessions
      = fetchedSessions := by
  refine ⟨rfl, rfl, rfl⟩

/-! ## C2 — the restore partition -/

theorem restorePartition_parts :
    ∀ tabs : List SessionTab,
      (restorePartition tabs).1 = (tabs.filter restorableUrl).map SessionTab.url ∧
      (restorePartition tabs).2 = (tabs.filter (fun t => !restorableUrl t)).map
        (fun t => if t.url = "" then "<No URL found>" else t.url)
  | [] => ⟨rfl, rfl⟩
  | t :: ts => by
    obtain ⟨ih1, ih2⟩ := restorePartition_parts ts
    by_cases h0 : t.url = ""
    · have hr : restorableUrl t = false := by simp [restorableUrl, h0]
      simp [restorePartition, h0, hr, List.filter_cons, ih1, ih2]
    · by_cases h1 : ((validateUrl t.url).isValid &&
          (jsStartsWith t.url "http:" || jsStartsWith t.url "https://")) = true
      · have hr : restorableUrl t = true := by simp [restorableUrl, h0, h1]
        exact ⟨by simp [restorePartition, h0, h1, hr, List.filter_cons, ih1],
               by simp [restorePartition, h0, h1, hr, List.filter_cons, ih2]⟩
      · have hr : restorableUrl t = false := by simp [restorableUrl, h0, h1]
        exact ⟨by simp [restorePartition, h0, h1, hr, List.filter_cons, ih1],
               by simp [restorePartition, h0, h1, hr, List.filter_cons, ih2]⟩

/-- C2 counterexample: `"HTTPS://A.TEST"` is a syntactically valid URL
whose parsed scheme is `https`, yet `restoreSession` puts it in the
invalid partition, because the source checks the literal case-sensitive
prefixes `"http:"` / `"https://"` rather than the parsed scheme. -/
theorem restorePartition_uppercase_counterexample :
    jsURL "HTTPS://A.TEST" = some ⟨"https", "a.test"⟩ ∧
    (validateUrl "HTTPS://A.TEST").isValid = true ∧
    restorePartition [⟨"HTTPS://A.TEST", "t"⟩] = ([], ["HTTPS://A.TEST"]) := by
  decide

/-- C2 (amended): `restoreSession` partitions `session.tabs` into a valid
partition containing exactly those tabs whose URL passes `validateUrl`
and literally starts with `"http:"` or `"https://"` (a case-sensitive
prefix check), and an invalid partition containing everything else
(unparsable URLs, non-web schemes; a missing URL is recorded as the
placeholder `"<No URL found>"`), each preserving the original relative
order; on the example tabs the partitions are exactly as stated. -/
theorem restoreSession_partitions (tabs : List SessionTab) :
    (restorePartition tabs).1 = (tabs.filter restorableUrl).map SessionTab.url ∧
    (restorePartition tabs).2 = (tabs.filter (fun t => !restorableUrl t)).map
      (fun t => if t.url = "" then "<No URL found>" else t.url) ∧
    restorePartition
        [⟨"https://a.test", "t"⟩, ⟨"chrome://settings", "t"⟩, ⟨"not a url", "t"⟩]
      = (["https://a.test"], ["chrome://settings", "not a url"]) :=
  ⟨(restorePartition_parts tabs).1, (restorePartition_parts tabs).2, by decide⟩

/-! ## C10 — validateUrl is scheme-agnostic -/

/-- C10: `validateUrl` accepts every string the URL constructor can
parse, regardless of scheme; in particular `"chrome://settings"` is
accepted, so `saveSessions` persists sessions with non-web scheme URLs
even though `restoreSession` puts exactly those URLs in the skipped
partition. -/
theorem validateUrl_accepts_any_parseable :
    (∀ s : String, (jsURL s).isSome = true → (validateUrl s).isValid = true) ∧
    (validateUrl "chrome://settings").isValid = true ∧
    saveSessions [⟨"Internal", [⟨"chrome://settings", "Settings"⟩], 0⟩]
      = .ok [⟨"Internal", [⟨"chrome://settings", "Settings"⟩], 0⟩] ∧
    restorePartition [⟨"chrome://settings", "Settings"⟩]
      = ([], ["chrome://settings"]) := by
  refine ⟨?_, by decide, by decide, by decide⟩
  intro s h
  by_cases h0 : s = ""
  · subst h0; exact absurd h (by decide)
  · by_cases h1 : (jsTrim s).length = 0
    · have hnil : trimChars s.data = [] := List.length_eq_zero.mp h1
      have hnone : jsURL s = none := by
        unfold jsURL
        rw [hnil]
        rfl
      rw [hnone] at h
      exact absurd h (by decide)
    · unfold validateUrl
      rw [if_neg h0, if_neg h1]
      cases hu : jsURL s with
      | none => rw [hu] at h; exact absurd h (by decide)
      | some u => rfl

/-- C10 witness. -/
theorem validateUrl_accepts_any_parseable_witness :
    (validateUrl "wss://h.test").isValid = true :=
  validateUrl_accepts_any_parseable.1 "wss://h.test" (by decide)

/-! ## C8 — filter semantics -/

theorem tabPassesFilters_iff (now : Int) (filters : FilterOptions) (t : Tab) :
    tabPassesFilters now filters t = true ↔
      (¬(filters.timeFilter > 0 ∧ now - t.lastAccessed < filters.timeFilter) ∧
       ¬(filters.searchTerm ≠ "" ∧
         strIncludes (jsToUpper t.title) filters.searchTerm = false ∧
         strIncludes (jsToUpper t.url) filters.searchTerm = false)) := by
  unfold tabPassesFilters
  split_ifs with h1 h2
  · simp [h1]
  · simp [h1, h2]
  · simp [h1, h2]

/-- C8: the filter step has AND semantics: a tab is in the result iff it
is in the input and is excluded by neither the time rule
(`timeFilter > 0` and `now - lastAccessed < timeFilter`) nor the search
rule (non-empty `searchTerm` contained in neither the uppercased title
nor the uppercased URL); with `timeFilter = 0` the time axis excludes
nothing, and with a non-empty `searchTerm` every result tab contains the
term in its uppercased title or URL. -/
theorem applyFilters_search_semantics (now : Int) (filters : FilterOptions)
    (tabs : List Tab) (t : Tab) :
    (t ∈ applyFilters now tabs filters ↔
      (t ∈ tabs ∧
       ¬(filters.timeFilter > 0 ∧ now - t.lastAccessed < filters.timeFilter) ∧
       ¬(filters.searchTerm ≠ "" ∧
         strIncludes (jsToUpper t.title) filters.searchTerm = false ∧
         strIncludes (jsToUpper t.url) filters.searchTerm = false))) ∧
    (filters.timeFilter = 0 →
      (t ∈ applyFilters now tabs filters ↔
        (t ∈ tabs ∧
         ¬(filters.searchTerm ≠ "" ∧
           strIncludes (jsToUpper t.title) filters.searchTerm = false ∧
           strIncludes (jsToUpper t.url) filters.searchTerm = false)))) ∧
    (filters.searchTerm ≠ "" → t ∈ applyFilters now tabs filters →
      (strIncludes (jsToUpper t.title) filters.searchTerm = true ∨
       strIncludes (jsToUpper t.url) filters.searchTerm = true)) := by
  have hmem : t ∈ applyFilters now tabs filters ↔
      t ∈ tabs ∧ tabPassesFilters now filters t = true := by
    unfold applyFilters
    rw [mem_sortStep, List.mem_filter]
  have hiff := tabPassesFilters_iff now filters t
  refine ⟨?_, ?_, ?_⟩
  · rw [hmem, hiff]
  · intro h0
    rw [hmem, hiff]
    have hA : ¬(filters.timeFilter > 0 ∧ now - t.lastAccessed < filters.timeFilter) := by
      rw [h0]; intro hc; exact absurd hc.1 (by norm_num)
    tauto
  · intro hst hin
    have hB := (hiff.mp (hmem.mp hin).2).2
    by_cases ht : strIncludes (jsToUpper t.title) filters.searchTerm = true
    · exact Or.inl ht
    · by_cases hu : strIncludes (jsToUpper t.url) filters.searchTerm = true
      · exact Or.inr hu
      · exact absurd ⟨hst, by simpa using ht, by simpa using hu⟩ hB

/-- C8 witness. -/
theorem applyFilters_search_semantics_witness :
    strIncludes (jsToUpper c8Tab.title) "ALPHA" = true ∨
    strIncludes (jsToUpper c8Tab.url) "ALPHA" = true :=
  (applyFilters_search_semantics 1000 ⟨0, "ALPHA", .lastAccessed⟩ [c8Tab] c8Tab).2.2
    (by decide) (by decide)

/-! ## C4 — import merge is purely additive -/

/-- C4: the import merge drops exactly the incoming sessions whose name
matches an existing session's name, prepends the surviving incoming
sessions (in their original order, a sublist of `incoming`) before the
unchanged existing list, and an all-duplicates import adds zero sessions
without being an error. -/
theorem importMerge_additive (existing incoming : List Session) :
    ((importMerge existing incoming).1 =
      incoming.filter (fun s => !((existing.map Session.name).contains s.name))
        ++ existing) ∧
    ((importMerge existing incoming).2 =
      (incoming.filter
        (fun s => !((existing.map Session.name).contains s.name))).length) ∧
    (incoming.filter
      (fun s => !((existing.map Session.name).contains s.name))).Sublist incoming ∧
    (∀ s : Session,
      s ∈ incoming.filter
        (fun s => !((existing.map Session.name).contains s.name)) ↔
        (s ∈ incoming ∧ s.name ∉ existing.map Session.name)) ∧
    ((∀ s ∈ incoming, s.name ∈ existing.map Session.name) →
      importMerge existing incoming = (existing, 0)) ∧
    (incoming.any (fun s => s.name = "") = false →
      processImportSessions existing incoming = .ok (importMerge existing incoming)) := by
  refine ⟨?_, rfl, List.filter_sublist _, ?_, ?_, ?_⟩
  · by_cases h : (incoming.filter
        (fun s => !((existing.map Session.name).contains s.name))).isEmpty = true
    · have hnil := List.isEmpty_iff.mp h
      simp [importMerge, h, hnil]
    · simp [importMerge, h]
  · intro s
    simp [List.mem_filter]
  · intro hall
    have hnil : incoming.filter
        (fun s => !((existing.map Session.name).contains s.name)) = [] := by
      rw [List.filter_eq_nil_iff]
      intro a ha
      simp [hall a ha]
    simp only [importMerge]
    rw [hnil]
    rfl
  · intro h
    simp [processImportSessions, h]

def c4Existing : List Session := [⟨"Work", [⟨"https://a.test", "t"⟩], 0⟩]

def c4Incoming : List Session := [⟨"Work", [⟨"https://b.test", "t"⟩], 5⟩]

/-- C4 witness: an all-duplicates import adds nothing. -/
theorem importMerge_additive_witness :
    importMerge c4Existing c4Incoming = (c4Existing, 0) :=
  (importMerge_additive c4Existing c4Incoming).2.2.2.2.1 (by decide)

/-! ## C3 — saveSessions validates the whole batch atomically -/

theorem urlViolations_eq_nil (i : Nat) :
    ∀ (j : Nat) (tabs : List SessionTab),
      urlViolations i j tabs = [] ↔ ∀ t ∈ tabs, (validateUrl t.url).isValid = true
  | _, [] => by simp [urlViolations]
  | j, t :: rest => by
    by_cases h : (validateUrl t.url).isValid = true
    · simp only [urlViolations, h, if_true, List.nil_append]
      rw [urlViolations_eq_nil i (j + 1) rest]
      simp [h]
    · simp only [urlViolations, h, if_false]
      constructor
      · intro hc
        exact absurd hc (by simp)
      · intro hall
        exact absurd (hall t (by simp)) h

theorem sessionViolations_eq_nil (i : Nat) (s : Session) :
    sessionViolations i s = [] ↔ sessionValid s := by
  unfold sessionViolations sessionValid
  rw [List.append_eq_nil, List.append_eq_nil, urlViolations_eq_nil]
  by_cases h1 : (validateSessionName s.name).isValid = true
  · by_cases h2 : s.tabs.length = 0
    · have : s.tabs = [] := List.length_eq_zero.mp h2
      simp [h1, h2, this]
    · have : s.tabs ≠ [] := fun hc => h2 (by simp [hc])
      simp [h1, h2, this]
  · simp [h1]

theorem validationErrorsAux_eq_nil :
    ∀ (i : Nat) (sessions : List Session),
      validationErrorsAux i sessions = [] ↔ ∀ s ∈ sessions, sessionValid s
  | _, [] => by simp [validationErrorsAux]
  | i, s :: rest => by
    simp only [validationErrorsAux, List.append_eq_nil,
      sessionViolations_eq_nil, validationErrorsAux_eq_nil (i + 1) rest]
    simp [List.forall_mem_cons]

/-- C3: `saveSessions` validates every session in the batch (valid name,
at least one tab, every tab URL syntactically valid) before writing: if
any session violates any rule, it throws a `SessionError` whose message
joins every violation found in the whole batch and the persisted storage
is unchanged; otherwise the entire batch is written in one step. -/
theorem saveSessions_atomic (storage sessions : List Session) :
    (validationErrors sessions = [] ↔ ∀ s ∈ sessions, sessionValid s) ∧
    (validationErrors sessions ≠ [] →
      saveSessionsStorage storage sessions = (storage,
        some ("Validation failed: " ++
          String.intercalate ", " (validationErrors sessions)))) ∧
    (validationErrors sessions = [] →
      saveSessionsStorage storage sessions = (sessions, none)) := by
  refine ⟨validationErrorsAux_eq_nil 0 sessions, ?_, ?_⟩
  · intro h
    unfold saveSessionsStorage saveSessions
    rw [if_neg h]
  · intro h
    unfold saveSessionsStorage saveSessions
    rw [if_pos h]

/-- C3 witness: a batch with an invalid session leaves the storage
unchanged and reports the full violation list. -/
theorem saveSessions_atomic_witness :
    saveSessionsStorage [] [c3Bad] = ([],
      some ("Validation failed: " ++
        String.intercalate ", " (validationErrors [c3Bad]))) :=
  (saveSessions_atomic [] [c3Bad]).2.1 (by decide)

/-! ## C7 — session creation validation -/

theorem validateSessionName_isValid_false_iff (n : String) :
    (validateSessionName n).isValid = false ↔
      ((jsTrim n).length = 0 ∨ (jsTrim n).length > 100 ∨
       (jsTrim n).data.any invalidNameChar = true) := by
  unfold validateSessionName
  by_cases h0 : n = ""
  · subst h0
    exact iff_of_true (by decide) (Or.inl (by decide))
  · rw [if_neg h0]
    by_cases h1 : (jsTrim n).length = 0
    · rw [if_pos h1]
      exact iff_of_true rfl (Or.inl h1)
    · rw [if_neg h1]
      by_cases h2 : (jsTrim n).length > 100
      · rw [if_pos h2]
        exact iff_of_true rfl (Or.inr (Or.inl h2))
      · rw [if_neg h2]
        by_cases h3 : (jsTrim n).data.any invalidNameChar = true
        · rw [if_pos h3]
          exact iff_of_true rfl (Or.inr (Or.inr h3))
        · rw [if_neg h3]
          exact iff_of_false (by simp) (by tauto)

/-- C7 counterexample: with a stale selection (id 99 matches no live
tab) and a valid name, `handleSaveSession` builds a session whose tab
list is empty, prepends it to the in-memory session list anyway, and
only then fails persisting: a session with an empty tab list is added to
the session list even though the save fails. -/
theorem handleSaveSession_stale_counterexample :
    (handleSaveSession c7StaleState [] "Work" "TS" 7).1.savedSessions
      = [⟨"Work", [], 7⟩] ∧
    (handleSaveSession c7StaleState [] "Work" "TS" 7).2.1 = [] ∧
    (handleSaveSession c7StaleState [] "Work" "TS" 7).2.2
      = some "ERROR: COULD NOT SAVE SESSION" := by
  decide

/-- C7 (amended): creating a session fails whenever the effective session
name fails validation (trimmed name empty, longer than 100 characters,
or containing filename-unsafe characters) or the selection is empty; in
those cases the state and the persisted storage are left unchanged and
an error is surfaced. (A non-empty selection matching no live tab still
slips an empty-tab session into the in-memory list; see the
counterexample.) -/
theorem handleSaveSession_rejects_invalid (st : AppState) (storage : List Session)
    (inputValue defaultTimestamp : String) (now : Int) :
    ((validateSessionName (effectiveSessionName inputValue defaultTimestamp)).isValid
        = false ↔
      ((jsTrim (effectiveSessionName inputValue defaultTimestamp)).length = 0 ∨
       (jsTrim (effectiveSessionName inputValue defaultTimestamp)).length > 100 ∨
       (jsTrim (effectiveSessionName inputValue defaultTimestamp)).data.any
         invalidNameChar = true)) ∧
    ((validateSessionName (effectiveSessionName inputValue defaultTimestamp)).isValid
        = false ∨ st.selectedTabs = ∅ →
      ∃ e, handleSaveSession st storage inputValue defaultTimestamp now
        = (st, storage, some e)) := by
  refine ⟨validateSessionName_isValid_false_iff _, ?_⟩
  intro h
  by_cases hc : st.selectedTabs.card = 0
  · refine ⟨"SELECT TABS TO SAVE", ?_⟩
    simp [handleSaveSession, hc]
  · have hv : (validateSessionName
        (effectiveSessionName inputValue defaultTimestamp)).isValid = false := by
      rcases h with h | h
      · exact h
      · exact absurd (by rw [h]; exact Finset.card_empty) hc
    refine ⟨(validateSessionName
        (effectiveSessionName inputValue defaultTimestamp)).error.getD
        "INVALID SESSION NAME", ?_⟩
    simp [handleSaveSession, hc, hv]

/-- C7 witness: an unsafe name is rejected and nothing changes. -/
theorem handleSaveSession_rejects_invalid_witness :
    ∃ e, handleSaveSession c7SelState [] "bad/name" "TS" 7
      = (c7SelState, [], some e) :=
  (handleSaveSession_rejects_invalid c7SelState [] "bad/name" "TS" 7).2
    (Or.inl (by decide))

/-! ## C6 — grouped view -/

theorem insertGroup_flatten (d : String) (t : Tab) :
    ∀ G : List (String × List Tab),
      List.Perm ((insertGroup G d t).map Prod.snd).flatten ((G.map Prod.snd).flatten ++ [t])
  | [] => by simp [insertGroup]
  | (k, ts) :: rest => by
    by_cases hk : k = d
    · simp only [insertGroup, hk, if_true, List.map_cons, List.flatten_cons,
        List.append_assoc]
      exact List.Perm.append_left ts List.perm_append_comm
    · simp only [insertGroup, hk, if_false, List.map_cons, List.flatten_cons,
        List.append_assoc]
      exact List.Perm.append_left ts (insertGroup_flatten d t rest)

theorem groupFold_flatten :
    ∀ (l : List Tab) (G : List (String × List Tab)),
      List.Perm ((l.foldl groupStep G).map Prod.snd).flatten
        ((G.map Prod.snd).flatten ++ l.filter (fun t => !decide (t.url = "")))
  | [], G => by simp
  | t :: ts, G => by
    by_cases h : t.url = ""
    · have hstep : groupStep G t = G := by simp [groupStep, h]
      have hfil : (t :: ts).filter (fun t => !decide (t.url = "")) =
          ts.filter (fun t => !decide (t.url = "")) := by
        simp [List.filter_cons, h]
      rw [List.foldl_cons, hstep, hfil]
      exact groupFold_flatten ts G
    · have hstep : groupStep G t = insertGroup G (getDomain t.url) t := by
        simp [groupStep, h]
      simp only [List.foldl_cons, hstep]
      refine (groupFold_flatten ts (insertGroup G (getDomain t.url) t)).trans ?_
      refine ((insertGroup_flatten (getDomain t.url) t G).append_right _).trans ?_
      rw [List.filter_cons, if_pos (by simp [h])]
      simp [List.append_assoc]

def c6Tab : Tab := ⟨1, "T", "", false, 1, false, 100⟩

/-- C6 counterexample: a tab with an empty URL passes the filter step
(so it is in the filtered sequence) but `groupTabsByDomain` silently
skips it, so the union of all group member lists omits it. -/
theorem groupedView_counterexample :
    tabPassesFilters 1000 ⟨0, "", .lastAccessed⟩ c6Tab = true ∧
    groupTabsByDomain [c6Tab] = [] ∧
    ((sortedGroups [c6Tab]).map Prod.snd).flatten.count c6Tab = 0 := by
  decide

/-- C6 (amended): the union of all group member lists contains each tab
of the filtered sequence that has a non-empty URL exactly once (tabs
with an empty URL are silently omitted from grouping), and the groups
are ordered by non-increasing member count. -/
theorem groupedView_partition (tabs : List Tab) :
    List.Perm ((sortedGroups tabs).map Prod.snd).flatten
      (tabs.filter (fun t => !decide (t.url = ""))) ∧
    (sortedGroups tabs).Pairwise (fun a b => b.2.length ≤ a.2.length) := by
  constructor
  · have h1 : List.Perm (sortedGroups tabs) (groupTabsByDomain tabs) :=
      List.perm_insertionSort _ _
    refine (List.Perm.flatten (h1.map Prod.snd)).trans ?_
    simpa using groupFold_flatten tabs []
  · haveI : IsTotal (String × List Tab) (fun a b => b.2.length ≤ a.2.length) :=
      ⟨fun a b => le_total b.2.length a.2.length⟩
    haveI : IsTrans (String × List Tab) (fun a b => b.2.length ≤ a.2.length) :=
      ⟨fun _ _ _ hab hbc => le_trans hbc hab⟩
    exact List.sorted_insertionSort _ _

end ManTab
